import Mathlib

/-!
Verification of the drift-detection repository (PCA-CD and EDDM detectors).

The Python sources `src/molten/distribution/pca_cd.py` and
`src/menelaus/concept_drift/eddm.py` are embedded shallowly:
floating-point values become real numbers, the detector objects become
explicit state records, and each `update`/`reset` method becomes a pure
function from states to states.  The `DriftDetector` base class, the
`PageHinkley` monitor and the `kl_divergence` helper are repository code
that is not part of the given sources; where a claim depends on them they
are modelled from the specification (marked `Modelled from the spec:` in
the doc comment), and external collaborators (PCA, scaler, histogram,
monitor) are abstracted behind an interface record, exactly as the
specification prescribes.
-/

/-- Drift states other than the stable state (Python `None`).  A detector's
`drift_state` is `Option DriftState`, with `none` playing the role of the
stable state. -/
inductive DriftState : Type where
  | warning : DriftState
  | drift : DriftState
deriving DecidableEq

/-! ## EDDM (`src/menelaus/concept_drift/eddm.py`) -/

/-- Constructor arguments of `EDDM.__init__`. -/
structure EddmConfig : Type where
  n_threshold : ℕ
  warning_thresh : ℝ
  drift_thresh : ℝ

/-- The mutable attributes of an `EDDM` instance, including the counters
owned by the `DriftDetector` base class. -/
structure EddmState : Type where
  total : ℕ
  ssr : ℕ
  drift_state : Option DriftState
  n_errors : ℕ
  index_error_curr : ℤ
  index_error_last : ℤ
  dist_mean : ℝ
  dist_std : ℝ
  max_numerator : ℝ
  test_statistic : Option ℝ
  recs_start : Option ℕ
  recs_end : Option ℕ

/-- State after `EDDM.__init__` (counters from the base constructor). -/
def eddmInit : EddmState :=
  { total := 0, ssr := 0, drift_state := none, n_errors := 0,
    index_error_curr := 0, index_error_last := 0, dist_mean := 0,
    dist_std := 0, max_numerator := 0, test_statistic := none,
    recs_start := none, recs_end := none }

/-- `EDDM.reset`.  The call to `super().reset()` is modelled from the spec:
the base `DriftDetector.reset` sets `samples_since_reset` to 0 and the
state to stable, and does not touch `total_samples` (spec section 4.1). -/
def eddmReset (s : EddmState) : EddmState :=
  { s with ssr := 0, drift_state := none, n_errors := 0,
           index_error_curr := 0, index_error_last := 0, dist_mean := 0,
           dist_std := 0, max_numerator := 0, test_statistic := none,
           recs_start := none, recs_end := none }

/-- Modelled from the spec: the base `DriftDetector.update` (the class is
not among the given sources) increments `total_samples` and
`samples_since_reset`, and nothing else (spec section 4.1). -/
def eddmCountStep (s : EddmState) : EddmState :=
  { s with total := s.total + 1, ssr := s.ssr + 1 }

/-- The implicit-reset guard at the top of `EDDM.update`. -/
def eddmPre (s : EddmState) : EddmState :=
  if s.drift_state = some DriftState.drift then eddmReset s else s

/-- The error-processing part of `EDDM.update` (the body under
`if not classifier_result`), applied to the state after the counters have
been incremented. -/
noncomputable def eddmErrorStep (cfg : EddmConfig) (s : EddmState) : EddmState :=
  let n := s.n_errors + 1
  let curr : ℤ := (s.ssr : ℤ) - 1
  let dist : ℝ := ((curr - s.index_error_curr : ℤ) : ℝ)
  let mean := s.dist_mean + (dist - s.dist_mean) / (n : ℝ)
  let std := Real.sqrt ((s.dist_std + (dist - mean) * (dist - s.dist_mean)) / (n : ℝ))
  let s1 : EddmState :=
    { s with n_errors := n, index_error_last := s.index_error_curr,
             index_error_curr := curr, dist_mean := mean, dist_std := std }
  if n < cfg.n_threshold then s1
  else
    let curr_num := mean + 2 * std
    let maxn := if s1.max_numerator < curr_num then curr_num else s1.max_numerator
    let stat := curr_num / maxn
    let ds : Option DriftState :=
      if stat ≤ cfg.drift_thresh then some DriftState.drift
      else if stat ≤ cfg.warning_thresh then some DriftState.warning
      else none
    let rs1 := if ds = some DriftState.warning ∧ s1.recs_start = none then
                 some (s1.total - 1) else s1.recs_start
    let re1 := if ds = some DriftState.drift then some (s1.total - 1) else s1.recs_end
    let rs2 := if ds = some DriftState.drift ∧ rs1 = none then some (s1.total - 1) else rs1
    { s1 with max_numerator := maxn, test_statistic := some stat,
              drift_state := ds, recs_start := rs2, recs_end := re1 }

/-- `EDDM.update(y_pred, y_true)`: implicit reset on a sticky drift state,
base counter increment, then the error bookkeeping when the classification
was wrong. -/
noncomputable def eddmUpdate (cfg : EddmConfig) (s : EddmState)
    (y_pred y_true : ℤ) : EddmState :=
  if y_pred = y_true then eddmCountStep (eddmPre s)
  else eddmErrorStep cfg (eddmCountStep (eddmPre s))

/-- States an `EDDM` instance can actually be in: the initial state, closed
under `update` and `reset` calls. -/
inductive EddmReachable (cfg : EddmConfig) : EddmState → Prop where
  | init : EddmReachable cfg eddmInit
  | step (s : EddmState) (y_pred y_true : ℤ) :
      EddmReachable cfg s → EddmReachable cfg (eddmUpdate cfg s y_pred y_true)
  | reset (s : EddmState) :
      EddmReachable cfg s → EddmReachable cfg (eddmReset s)

/-! ## PCA-CD static numerical routines (`src/molten/distribution/pca_cd.py`) -/

/-- A density estimate as returned by `PCACD._build_kde_track` /
`_build_histograms`: the dictionary with keys `point` and `density`. -/
structure Track : Type where
  point : List ℝ
  density : List ℝ

/-- The empty `Track`, used as the out-of-range default when indexing the
per-component density tables. -/
def emptyTrack : Track := { point := [], density := [] }

/-- Python's `statistics.stdev`: the sample standard deviation, the square
root of the sum of squared deviations from the mean divided by `n - 1`. -/
noncomputable def sampleStdev (values : List ℝ) : ℝ :=
  Real.sqrt (((values.map
    (fun x => (x - values.sum / (values.length : ℝ)) ^ 2)).sum) /
      ((values.length : ℝ) - 1))

/-- `PCACD._epanechnikov_kernel`: `(3/4) * (1 - x^2)` for `|x| <= 1`,
`0` otherwise. -/
noncomputable def epanechnikovKernel (x_j : ℝ) : ℝ :=
  if |x_j| ≤ 1 then (3 / 4) * (1 - x_j ^ 2) else 0

/-- The bandwidth computed inside `PCACD._build_kde_track`:
`1.06 * stdev(values) * len(values) ** (-1/5)`. -/
noncomputable def kdeBandwidth (values : List ℝ) : ℝ :=
  1.06 * sampleStdev values * (values.length : ℝ) ^ (-(1 / 5 : ℝ))

/-- `PCACD._build_kde_track`: the kernel density estimate of a batch,
evaluated at the batch's own points. -/
noncomputable def buildKdeTrack (values : List ℝ) : Track :=
  { point := values,
    density := values.map (fun x =>
      (1 / ((values.length : ℝ) * kdeBandwidth values)) *
        ((values.map (fun x_j =>
          epanechnikovKernel ((x - x_j) / kdeBandwidth values))).sum)) }

/-- `PCACD._log_likelihood`: the bandwidth uses `stdev(values_q)` but
`len(values_p)`; a single kernel density with centers `values_p` is
evaluated at the points of both batches, each log-likelihood is divided by
its own batch length, and the absolute difference is returned. -/
noncomputable def logLikelihood (values_p values_q : List ℝ) : ℝ :=
  let sample_length := values_p.length
  let bandwidth := 1.06 * sampleStdev values_q * (sample_length : ℝ) ^ (-(1 / 5 : ℝ))
  let llh_q := (values_q.map (fun y => Real.log ((values_p.map (fun x =>
      (1 / (sample_length : ℝ)) * epanechnikovKernel ((y - x) / bandwidth))).sum))).sum
  let llh_p := (values_p.map (fun y => Real.log ((values_p.map (fun x =>
      (1 / (sample_length : ℝ)) * epanechnikovKernel ((y - x) / bandwidth))).sum))).sum
  |llh_q / (values_q.length : ℝ) - llh_p / (values_p.length : ℝ)|

/-- `PCACD._intersection_area`: `(1/2) * sum(|x - y| for x, y in zip(p, q))`. -/
noncomputable def intersectionArea (values_p values_q : List ℝ) : ℝ :=
  (1 / 2) * (((values_p.zip values_q).map (fun pr => |pr.1 - pr.2|)).sum)

/-- Modelled from the spec: the repository's `kl_divergence` helper
(`molten/distribution/kl_divergence.py` is not among the given sources).
Per spec section 4.3, the discrete KL divergence sums `p_i * log(p_i/q_i)`
over aligned entries, and an entry with zero mass on either side
contributes zero instead of a non-finite value. -/
noncomputable def klDivergence (p q : List ℝ) : ℝ :=
  (((p.zip q).map (fun pr =>
    if pr.1 = 0 ∨ pr.2 = 0 then 0 else pr.1 * Real.log (pr.1 / pr.2))).sum)

/-- The symmetric KL score computed inline by `PCACD.update` (lines
239-255): the max of the two directed divergences. -/
noncomputable def klSymmetric (p q : List ℝ) : ℝ :=
  max (klDivergence p q) (klDivergence q p)

/-- Python's built-in `round`: round half to even (banker's rounding),
on exact rationals. -/
def pythonRound (q : ℚ) : ℤ :=
  if q - (⌊q⌋ : ℚ) < 1 / 2 then ⌊q⌋
  else if (1 / 2 : ℚ) < q - (⌊q⌋ : ℚ) then ⌊q⌋ + 1
  else if ⌊q⌋ % 2 = 0 then ⌊q⌋ else ⌊q⌋ + 1

/-- Python's `max` on a list, as used for `max(change_scores)`: junk value
`0` on the empty list (where Python would raise). -/
def pythonMax (l : List ℝ) : ℝ :=
  match l with
  | [] => 0
  | x :: xs => xs.foldl max x

/-! ## PCA-CD detector

The PCA, standard-scaler, histogram and Page-Hinkley collaborators are
external to the given sources (PCA and the scaler are sklearn;
`PageHinkley` lives in a module that is not part of the sources).  The
spec treats them as collaborators specified only by their interface, so
the detector is parametrised by that interface. -/

/-- The interface of the external collaborators used by `PCACD`:
dimensionality reduction, feature scaling, histogram estimation, and the
internal cumulative-deviation (Page-Hinkley) monitor. -/
structure Externals : Type 1 where
  Pca : Type
  Scaler : Type
  Monitor : Type
  pcaFit : ℚ → List (List ℝ) → Pca
  pcaNumComponents : Pca → ℕ
  pcaTransform : Pca → List ℝ → List ℝ
  scalerFit : List (List ℝ) → Scaler
  scalerTransform : Scaler → List ℝ → List ℝ
  scalerInverse : Scaler → List (List ℝ) → List (List ℝ)
  monitorInit : ℚ → ℤ → ℕ → Monitor
  monitorUpdate : Monitor → ℝ → Monitor
  monitorState : Monitor → Option DriftState
  monitorReset : Monitor → Monitor
  histogram : List ℝ → ℕ → List ℝ

/-- The density strategies accepted by `PCACD.__init__` (`"kde"` or
`"histograms"`). -/
inductive DensityKind : Type where
  | kde : DensityKind
  | hist : DensityKind
deriving DecidableEq

/-- The divergence metrics accepted by `PCACD.__init__` (`"kl"`,
`"intersection"` or `"llh"`). -/
inductive MetricKind : Type where
  | kl : MetricKind
  | intersection : MetricKind
  | llh : MetricKind
deriving DecidableEq

/-- Constructor arguments of `PCACD.__init__`. -/
structure PcacdConfig : Type where
  window_size : ℕ
  ev_threshold : ℚ
  delta : ℚ
  density : DensityKind
  divergence_metric : MetricKind
  sample_period : ℚ
  online_scaling : Bool
  track_state : Bool

/-- `self.step = min(100, round(self.sample_period * window_size))`. -/
def pcacdStep (cfg : PcacdConfig) : ℤ :=
  min 100 (pythonRound (cfg.sample_period * (cfg.window_size : ℚ)))

/-- `self.ph_threshold = round(0.01 * window_size)`. -/
def pcacdPhThreshold (cfg : PcacdConfig) : ℤ :=
  pythonRound ((0.01 : ℚ) * (cfg.window_size : ℚ))

/-- `self.bins = math.floor(math.sqrt(self.window_size))`. -/
def pcacdBins (cfg : PcacdConfig) : ℕ := Nat.sqrt cfg.window_size

/-- The mutable attributes of a `PCACD` instance, over the collaborator
interface `E`.  `num_pcs` starts as Python `None`; it is modelled as `0`
until the projection is fitted (it is only read in the monitoring phase,
where it has always been assigned). -/
structure PcacdState (E : Externals) : Type where
  total : ℕ
  ssr : ℕ
  drift_state : Option DriftState
  build : Bool
  reference_window : List (List ℝ)
  test_window : List (List ℝ)
  pca : Option E.Pca
  num_pcs : ℕ
  reference_proj : List (List ℝ)
  test_proj : List (List ℝ)
  density_reference : List Track
  density_test : List Track
  scaler : Option E.Scaler
  monitor : E.Monitor
  tracker : List E.Monitor

/-- State after `PCACD.__init__`: empty windows, building phase, and the
internal Page-Hinkley monitor constructed with `(delta, ph_threshold,
burn_in=0)`. -/
def pcacdInit (cfg : PcacdConfig) (E : Externals) : PcacdState E :=
  { total := 0, ssr := 0, drift_state := none, build := true,
    reference_window := [], test_window := [], pca := none, num_pcs := 0,
    reference_proj := [], test_proj := [], density_reference := [],
    density_test := [], scaler := none,
    monitor := E.monitorInit cfg.delta (pcacdPhThreshold cfg) 0, tracker := [] }

/-- Modelled from the spec: the base `DriftDetector.update` (not among the
given sources) increments both sample counters (spec section 4.1); called
by `PCACD.update` as its final step. -/
def pcacdBaseUpdate {E : Externals} (s : PcacdState E) : PcacdState E :=
  { s with total := s.total + 1, ssr := s.ssr + 1 }

/-- Modelled from the spec: the base `DriftDetector.reset` (not among the
given sources) zeroes `samples_since_reset` and returns the state to
stable, leaving `total_samples` untouched (spec section 4.1).  `PCACD`
does not override `reset` in the given sources. -/
def pcacdBaseReset {E : Externals} (s : PcacdState E) : PcacdState E :=
  { s with ssr := 0, drift_state := none }

/-- Column `i` of a row-major projection buffer (`.iloc[:, i]`). -/
def column (i : ℕ) (rows : List (List ℝ)) : List ℝ :=
  rows.map (fun r => r.getD i 0)

/-- The density estimate dispatch in `PCACD.update`: KDE track or
histogram according to the configured density strategy. -/
noncomputable def pcacdDensityOf (cfg : PcacdConfig) (E : Externals)
    (values : List ℝ) : Track :=
  match cfg.density with
  | DensityKind.kde => buildKdeTrack values
  | DensityKind.hist => { point := values, density := E.histogram values (pcacdBins cfg) }

/-- The per-dimension change score for one retained component: the metric
dispatch of `PCACD.update` lines 239-274. -/
noncomputable def pcacdDimScore (cfg : PcacdConfig) (ref test : Track) : ℝ :=
  match cfg.divergence_metric with
  | MetricKind.kl => klSymmetric ref.density test.density
  | MetricKind.intersection => intersectionArea ref.density test.density
  | MetricKind.llh => logLikelihood ref.point test.point

/-- The new observation after optional online scaling (monitoring phase). -/
def pcacdScaledObs (cfg : PcacdConfig) (E : Externals) (s : PcacdState E)
    (obs : List ℝ) : List ℝ :=
  if cfg.online_scaling then
    match s.scaler with
    | some m => E.scalerTransform m obs
    | none => obs
  else obs

/-- Projection of a (scaled) observation by the fitted PCA model. -/
def pcacdProjRow (E : Externals) (s : PcacdState E) (v : List ℝ) : List ℝ :=
  match s.pca with
  | some m => E.pcaTransform m v
  | none => []

/-- The slid test-projection buffer after one monitoring-phase update:
drop the oldest row, append the projection of the new observation. -/
def pcacdNewTestProj (cfg : PcacdConfig) (E : Externals) (s : PcacdState E)
    (obs : List ℝ) : List (List ℝ) :=
  s.test_proj.drop 1 ++ [pcacdProjRow E s (pcacdScaledObs cfg E s obs)]

/-- The recomputed test-window density estimates, one per retained
principal component (`self._density_test`). -/
noncomputable def pcacdTestDensities (cfg : PcacdConfig) (E : Externals)
    (s : PcacdState E) (obs : List ℝ) : List Track :=
  (List.range s.num_pcs).map (fun i =>
    pcacdDensityOf cfg E (column i (pcacdNewTestProj cfg E s obs)))

/-- The list `change_scores` built by `PCACD.update`: for each retained
component, the configured divergence between the frozen reference density
and the recomputed test density. -/
noncomputable def pcacdChangeScores (cfg : PcacdConfig) (E : Externals)
    (s : PcacdState E) (obs : List ℝ) : List ℝ :=
  (List.range s.num_pcs).map (fun i =>
    pcacdDimScore cfg (s.density_reference.getD i emptyTrack)
      ((pcacdTestDensities cfg E s obs).getD i emptyTrack))

/-- The monitoring-phase branch of `PCACD.update` (lines 201-287): slide
the test window and its projection, and at the configured cadence
recompute densities, feed `max(change_scores)` to the internal monitor and
promote a monitor alarm to top-level drift.  The second component records
the change score fed to the monitor this call, if any. -/
noncomputable def pcacdMonitorStep (cfg : PcacdConfig) (E : Externals)
    (s : PcacdState E) (obs : List ℝ) : PcacdState E × Option ℝ :=
  let test2 := s.test_window.drop 1 ++ [pcacdScaledObs cfg E s obs]
  let testProj2 := pcacdNewTestProj cfg E s obs
  if (s.total : ℤ) % pcacdStep cfg = 0 ∧ s.total ≠ 0 then
    let densTest := pcacdTestDensities cfg E s obs
    let score := pythonMax (pcacdChangeScores cfg E s obs)
    let monitor2 := E.monitorUpdate s.monitor score
    if E.monitorState monitor2 = none then
      ({ s with test_window := test2, test_proj := testProj2,
                density_test := densTest, monitor := monitor2 }, some score)
    else
      ({ s with test_window := test2, test_proj := testProj2,
                density_test := densTest, monitor := monitor2,
                build := true, drift_state := some DriftState.drift,
                tracker := if cfg.track_state then s.tracker ++ [monitor2]
                           else s.tracker }, some score)
  else
    ({ s with test_window := test2, test_proj := testProj2 }, none)

/-- The drift sub-branch of the building phase (lines 138-148): promote
the test window to reference (inverse-transforming it when scaling is on),
clear the test window, call `self.reset()` and reset the monitor.  The new
observation is not used here. -/
def pcacdDriftRebuild (cfg : PcacdConfig) (E : Externals)
    (s : PcacdState E) : PcacdState E :=
  let ref := if cfg.online_scaling then
               match s.scaler with
               | some m => E.scalerInverse m s.test_window
               | none => s.test_window
             else s.test_window
  { pcacdBaseReset s with reference_window := ref, test_window := [],
                          monitor := E.monitorReset s.monitor }

/-- The if/elif chain of the building phase (lines 137-154). -/
def pcacdBuildAppend (cfg : PcacdConfig) (E : Externals)
    (s : PcacdState E) (obs : List ℝ) : PcacdState E :=
  if s.drift_state ≠ none then pcacdDriftRebuild cfg E s
  else if s.reference_window.length < cfg.window_size then
    { s with reference_window := s.reference_window ++ [obs] }
  else if s.test_window.length < cfg.window_size then
    { s with test_window := s.test_window ++ [obs] }
  else s

/-- The fit block of the building phase (lines 156-199), run when the test
window has just become full: optionally fit the scaler on the reference
window and transform both windows, fit the PCA model, project both
windows, build the frozen reference densities, and leave the building
phase. -/
noncomputable def pcacdFitBlock (cfg : PcacdConfig) (E : Externals)
    (s : PcacdState E) : PcacdState E :=
  let fitted := E.scalerFit s.reference_window
  let ref := if cfg.online_scaling then
               s.reference_window.map (E.scalerTransform fitted)
             else s.reference_window
  let test := if cfg.online_scaling then
                s.test_window.map (E.scalerTransform fitted)
              else s.test_window
  let scaler2 := if cfg.online_scaling then some fitted else s.scaler
  let pca2 := E.pcaFit cfg.ev_threshold ref
  let k := E.pcaNumComponents pca2
  let refProj := ref.map (E.pcaTransform pca2)
  let densRef := (List.range k).map (fun i => pcacdDensityOf cfg E (column i refProj))
  let testProj := test.map (E.pcaTransform pca2)
  { s with build := false, reference_window := ref, test_window := test,
           scaler := scaler2, pca := some pca2, num_pcs := k,
           reference_proj := refProj, density_reference := densRef,
           test_proj := testProj }

/-- `PCACD.update(next_obs)`.  The second component is the change score
fed to the internal monitor during this call, when a divergence evaluation
happened. -/
noncomputable def pcacdUpdate (cfg : PcacdConfig) (E : Externals)
    (s : PcacdState E) (obs : List ℝ) : PcacdState E × Option ℝ :=
  if s.build then
    let s1 := pcacdBuildAppend cfg E s obs
    let s2 := if s1.test_window.length = cfg.window_size then
                pcacdFitBlock cfg E s1 else s1
    (pcacdBaseUpdate s2, none)
  else
    let p := pcacdMonitorStep cfg E s obs
    (pcacdBaseUpdate p.1, p.2)

/-! ## Spec-side definitions

These follow the specification's wording; the refinement theorems below
compare them with the definitions embedded from the source. -/

/-- The kernel as worded in spec section 4.2: `0.75 * (1 - u^2)` for
`|u| <= 1` and `0` otherwise. -/
noncomputable def specEpanechnikov (u : ℝ) : ℝ :=
  if |u| ≤ 1 then 0.75 * (1 - u ^ 2) else 0

/-- The bandwidth as worded in spec section 4.2 (Silverman's rule):
`h = 1.06 * stdev(values) * n^(-1/5)`. -/
noncomputable def specSilvermanBandwidth (values : List ℝ) : ℝ :=
  1.06 * sampleStdev values * (values.length : ℝ) ^ (-(1 / 5 : ℝ))

/-- The single kernel density that `_log_likelihood` fits from the first
batch (centers `values_p`, bandwidth from `stdev(values_q)` and
`len(values_p)`), as a function of the evaluation point. -/
noncomputable def llhFittedDensity (values_p values_q : List ℝ) (y : ℝ) : ℝ :=
  (values_p.map (fun x =>
    (1 / (values_p.length : ℝ)) * epanechnikovKernel ((y - x) /
      (1.06 * sampleStdev values_q * ((values_p.length : ℝ)) ^ (-(1 / 5 : ℝ)))))).sum

/-- Per-sample-normalized log-likelihood of a batch under a density `f`,
as worded in spec section 4.3: sum of logs divided by the batch length. -/
noncomputable def specNormalizedLogLikelihood (f : ℝ → ℝ) (batch : List ℝ) : ℝ :=
  ((batch.map (fun y => Real.log (f y))).sum) / (batch.length : ℝ)

/-- The log-likelihood divergence as worded in spec section 4.3: the
absolute difference of the two normalized log-likelihoods of the two
batches under one common density. -/
noncomputable def specLogLikelihoodDivergence (f : ℝ → ℝ) (p q : List ℝ) : ℝ :=
  |specNormalizedLogLikelihood f q - specNormalizedLogLikelihood f p|

/-! ## The EDDM numeric invariant -/

/-- Invariant of every reachable `EDDM` state: the online statistics are
nonnegative, the stored error index is consistent with the sample counter,
the running mean is strictly positive once two errors have been seen, and
an alarm state can only exist once the error count has reached the
configured threshold. -/
structure EddmInv (cfg : EddmConfig) (s : EddmState) : Prop where
  mean_nonneg : 0 ≤ s.dist_mean
  std_nonneg : 0 ≤ s.dist_std
  max_nonneg : 0 ≤ s.max_numerator
  curr_nonneg : 0 ≤ s.index_error_curr
  curr_zero : s.n_errors = 0 → s.index_error_curr = 0
  curr_le : 1 ≤ s.n_errors → s.index_error_curr ≤ (s.ssr : ℤ) - 1
  mean_pos : 2 ≤ s.n_errors → 0 < s.dist_mean
  alarm_le : s.drift_state = some DriftState.warning ∨
      s.drift_state = some DriftState.drift → cfg.n_threshold ≤ s.n_errors

/-! ## Concrete instantiations used by the closed witness statements -/

/-- A concrete, trivial instantiation of the collaborator interface. -/
def unitExternals : Externals :=
  { Pca := Unit, Scaler := Unit, Monitor := Unit,
    pcaFit := fun _ _ => Unit.unit, pcaNumComponents := fun _ => 1,
    pcaTransform := fun _ v => v, scalerFit := fun _ => Unit.unit,
    scalerTransform := fun _ v => v, scalerInverse := fun _ b => b,
    monitorInit := fun _ _ _ => Unit.unit, monitorUpdate := fun _ _ => Unit.unit,
    monitorState := fun _ => none, monitorReset := fun _ => Unit.unit,
    histogram := fun _ _ => [] }

/-- A concrete `PCACD` configuration with `window_size = 2`. -/
def cexConfig : PcacdConfig :=
  { window_size := 2, ev_threshold := 99 / 100, delta := 1 / 10,
    density := DensityKind.kde, divergence_metric := MetricKind.kl,
    sample_period := 1 / 20, online_scaling := false, track_state := false }

/-- A concrete `PCACD` state of the shape the detector is in right after
signalling drift: building phase re-entered and `drift_state = "drift"`,
with the former test window still in place. -/
noncomputable def cexDriftState : PcacdState unitExternals :=
  { total := 4, ssr := 2, drift_state := some DriftState.drift, build := true,
    reference_window := [[0], [0]], test_window := [[1], [2]],
    pca := some Unit.unit, num_pcs := 1, reference_proj := [[0], [0]],
    test_proj := [[1], [2]],
    density_reference := [{ point := [0, 0], density := [1, 1] }],
    density_test := [], scaler := none, monitor := Unit.unit, tracker := [] }

/-- A concrete `PCACD` configuration with `window_size = 100` and
`sample_period = 1/20`, giving `step = 5`. -/
def witConfig : PcacdConfig :=
  { window_size := 100, ev_threshold := 99 / 100, delta := 1 / 10,
    density := DensityKind.kde, divergence_metric := MetricKind.kl,
    sample_period := 1 / 20, online_scaling := false, track_state := false }

/-- A concrete `PCACD` state in the monitoring phase with
`total_samples = 10`, a nonzero multiple of `step = 5`. -/
noncomputable def witMonitorState : PcacdState unitExternals :=
  { total := 10, ssr := 10, drift_state := none, build := false,
    reference_window := [[1], [2]], test_window := [[1], [2]],
    pca := some Unit.unit, num_pcs := 1, reference_proj := [[1], [2]],
    test_proj := [[1], [2]],
    density_reference := [{ point := [1, 2], density := [1, 1] }],
    density_test := [], scaler := none, monitor := Unit.unit, tracker := [] }

/-- A concrete `EDDM` configuration with `n_threshold = 2`. -/
noncomputable def eddmCfgW : EddmConfig :=
  { n_threshold := 2, warning_thresh := 95 / 100, drift_thresh := 9 / 10 }

/-- A concrete `EDDM` state carrying a drift flag. -/
noncomputable def eddmDriftStateW : EddmState :=
  { total := 7, ssr := 7, drift_state := some DriftState.drift, n_errors := 3,
    index_error_curr := 6, index_error_last := 4, dist_mean := 1,
    dist_std := 0, max_numerator := 3, test_statistic := some 1,
    recs_start := some 6, recs_end := some 6 }

/-- The distance between the two most recent errors computed inside
`EDDM.update`, as a real number (on the state after the counter
increment): `(samples_since_reset - 1) - index_error_curr`. -/
noncomputable def eddmDist (s : EddmState) : ℝ :=
  (((s.ssr : ℤ) - 1 - s.index_error_curr : ℤ) : ℝ)

/-- The updated running mean distance computed inside `EDDM.update`. -/
noncomputable def eddmNewMean (s : EddmState) : ℝ :=
  s.dist_mean + (eddmDist s - s.dist_mean) / ((s.n_errors + 1 : ℕ) : ℝ)

/-- The updated running standard deviation computed inside `EDDM.update`. -/
noncomputable def eddmNewStd (s : EddmState) : ℝ :=
  Real.sqrt ((s.dist_std + (eddmDist s - eddmNewMean s) * (eddmDist s - s.dist_mean)) /
    ((s.n_errors + 1 : ℕ) : ℝ))

/-! ## Helper lemmas -/

theorem eddmPre_total (s : EddmState) : (eddmPre s).total = s.total := by
  simp only [eddmPre]; split <;> rfl

theorem eddmPre_ssr (s : EddmState) :
    (eddmPre s).ssr = if s.drift_state = some DriftState.drift then 0 else s.ssr := by
  simp only [eddmPre]; split <;> rfl

theorem eddmErrorStep_total (cfg : EddmConfig) (s : EddmState) :
    (eddmErrorStep cfg s).total = s.total := by
  simp only [eddmErrorStep]; split <;> rfl

theorem eddmErrorStep_ssr (cfg : EddmConfig) (s : EddmState) :
    (eddmErrorStep cfg s).ssr = s.ssr := by
  simp only [eddmErrorStep]; split <;> rfl

theorem eddmErrorStep_n_errors (cfg : EddmConfig) (s : EddmState) :
    (eddmErrorStep cfg s).n_errors = s.n_errors + 1 := by
  simp only [eddmErrorStep]; split <;> rfl

theorem eddmUpdate_total (cfg : EddmConfig) (s : EddmState) (y_pred y_true : ℤ) :
    (eddmUpdate cfg s y_pred y_true).total = s.total + 1 := by
  unfold eddmUpdate
  split
  · simp [eddmCountStep, eddmPre_total]
  · simp [eddmErrorStep_total, eddmCountStep, eddmPre_total]

theorem eddmUpdate_ssr (cfg : EddmConfig) (s : EddmState) (y_pred y_true : ℤ) :
    (eddmUpdate cfg s y_pred y_true).ssr =
      if s.drift_state = some DriftState.drift then 1 else s.ssr + 1 := by
  unfold eddmUpdate
  split
  · simp only [eddmCountStep, eddmPre_ssr]
    split <;> simp
  · simp only [eddmErrorStep_ssr, eddmCountStep, eddmPre_ssr]
    split <;> simp

theorem pcacdBuildAppend_total (cfg : PcacdConfig) (E : Externals)
    (s : PcacdState E) (obs : List ℝ) :
    (pcacdBuildAppend cfg E s obs).total = s.total := by
  simp only [pcacdBuildAppend]; split <;> first | rfl | (split <;> first | rfl | (split <;> rfl))

theorem pcacdBuildAppend_ssr (cfg : PcacdConfig) (E : Externals)
    (s : PcacdState E) (obs : List ℝ) :
    (pcacdBuildAppend cfg E s obs).ssr =
      if s.drift_state ≠ none then 0 else s.ssr := by
  simp only [pcacdBuildAppend]
  split
  · rfl
  · split
    · rfl
    · split <;> rfl

theorem pcacdFitBlock_total (cfg : PcacdConfig) (E : Externals) (s : PcacdState E) :
    (pcacdFitBlock cfg E s).total = s.total := rfl

theorem pcacdFitBlock_ssr (cfg : PcacdConfig) (E : Externals) (s : PcacdState E) :
    (pcacdFitBlock cfg E s).ssr = s.ssr := rfl

theorem pcacdMonitorStep_fst_total (cfg : PcacdConfig) (E : Externals)
    (s : PcacdState E) (obs : List ℝ) :
    (pcacdMonitorStep cfg E s obs).1.total = s.total := by
  simp only [pcacdMonitorStep]
  split
  · split <;> rfl
  · rfl

theorem pcacdMonitorStep_fst_ssr (cfg : PcacdConfig) (E : Externals)
    (s : PcacdState E) (obs : List ℝ) :
    (pcacdMonitorStep cfg E s obs).1.ssr = s.ssr := by
  simp only [pcacdMonitorStep]
  split
  · split <;> rfl
  · rfl

theorem pcacdUpdate_fst_total (cfg : PcacdConfig) (E : Externals)
    (s : PcacdState E) (obs : List ℝ) :
    (pcacdUpdate cfg E s obs).1.total = s.total + 1 := by
  simp only [pcacdUpdate]
  split
  · split <;> simp [pcacdBaseUpdate, pcacdFitBlock_total, pcacdBuildAppend_total]
  · simp [pcacdBaseUpdate, pcacdMonitorStep_fst_total]

theorem pcacdUpdate_fst_ssr (cfg : PcacdConfig) (E : Externals)
    (s : PcacdState E) (obs : List ℝ) :
    (pcacdUpdate cfg E s obs).1.ssr =
      if s.build = true ∧ s.drift_state ≠ none then 1 else s.ssr + 1 := by
  simp only [pcacdUpdate]
  split
  · rename_i hb
    have hb' : s.build = true := hb
    split <;>
      simp [pcacdBaseUpdate, pcacdFitBlock_ssr, pcacdBuildAppend_ssr, hb'] <;>
      split <;> simp
  · rename_i hb
    have hb' : ¬ s.build = true := hb
    simp [pcacdBaseUpdate, pcacdMonitorStep_fst_ssr, hb']

theorem foldl_max_mem (xs : List ℝ) (a : ℝ) :
    xs.foldl max a = a ∨ xs.foldl max a ∈ xs := by
  induction xs generalizing a with
  | nil => left; rfl
  | cons x xs ih =>
    rw [List.foldl_cons]
    rcases ih (max a x) with h | h
    · rw [h]
      rcases le_total a x with hax | hxa
      · right; rw [max_eq_right hax]; exact List.mem_cons_self _ _
      · left; exact max_eq_left hxa
    · right; exact List.mem_cons_of_mem _ h

theorem le_foldl_max (xs : List ℝ) (a : ℝ) :
    a ≤ xs.foldl max a ∧ ∀ y ∈ xs, y ≤ xs.foldl max a := by
  induction xs generalizing a with
  | nil => exact ⟨le_refl _, by simp⟩
  | cons x xs ih =>
    obtain ⟨h1, h2⟩ := ih (max a x)
    rw [List.foldl_cons]
    refine ⟨le_trans (le_max_left a x) h1, ?_⟩
    intro y hy
    rcases List.mem_cons.mp hy with rfl | hy
    · exact le_trans (le_max_right a y) h1
    · exact h2 y hy

theorem pythonMax_mem (l : List ℝ) (h : l ≠ []) : pythonMax l ∈ l := by
  match l with
  | [] => exact absurd rfl h
  | x :: xs =>
    rcases foldl_max_mem xs x with h1 | h1
    · rw [pythonMax, h1]; exact List.mem_cons_self _ _
    · exact List.mem_cons_of_mem _ h1

theorem pythonMax_le (l : List ℝ) (y : ℝ) (hy : y ∈ l) : y ≤ pythonMax l := by
  match l with
  | [] => simp at hy
  | x :: xs =>
    rcases List.mem_cons.mp hy with rfl | hy2
    · exact (le_foldl_max xs y).1
    · exact (le_foldl_max xs x).2 y hy2

theorem zip_abs_sum_eq (p : List ℝ) : ∀ q : List ℝ, p.length = q.length →
    ((p.zip q).map (fun pr => |pr.1 - pr.2|)).sum =
      ∑ i ∈ Finset.range p.length, |p.getD i 0 - q.getD i 0| := by
  induction p with
  | nil => intro q h; simp
  | cons a p ih =>
    intro q h
    cases q with
    | nil => simp at h
    | cons b q =>
      simp only [List.zip_cons_cons, List.map_cons, List.sum_cons, List.length_cons]
      rw [Finset.sum_range_succ']
      simp only [List.getD_cons_succ, List.getD_cons_zero]
      rw [ih q (by simpa using h)]
      ring

theorem intersectionArea_comm (p q : List ℝ) :
    intersectionArea p q = intersectionArea q p := by
  unfold intersectionArea
  congr 1
  rw [← List.zip_swap p q, List.map_map]
  have hf : ((fun pr : ℝ × ℝ => |pr.1 - pr.2|) ∘ Prod.swap) =
      fun pr : ℝ × ℝ => |pr.1 - pr.2| := by
    funext pr
    simp [Function.comp, abs_sub_comm]
  rw [hf]

/-! ## Claim theorems -/

/-- C2: for both detectors, every update increments `total_samples` by
exactly 1 and `reset` never decreases or zeroes `total_samples`;
`samples_since_reset` is zeroed exactly by `reset` — after the implicit
reset performed by an update call in the drift state, the counter
increment of that same accepted call leaves it at 1 — and otherwise grows
by exactly 1 per accepted update. -/
theorem counters_contract :
    (∀ (cfg : EddmConfig) (s : EddmState) (y_pred y_true : ℤ),
      (eddmUpdate cfg s y_pred y_true).total = s.total + 1 ∧
      (eddmUpdate cfg s y_pred y_true).ssr =
        if s.drift_state = some DriftState.drift then 1 else s.ssr + 1) ∧
    (∀ s : EddmState, (eddmReset s).ssr = 0 ∧ (eddmReset s).total = s.total) ∧
    (∀ (cfg : PcacdConfig) (E : Externals) (s : PcacdState E) (obs : List ℝ),
      (pcacdUpdate cfg E s obs).1.total = s.total + 1 ∧
      (pcacdUpdate cfg E s obs).1.ssr =
        if s.build = true ∧ s.drift_state ≠ none then 1 else s.ssr + 1) ∧
    (∀ (E : Externals) (s : PcacdState E),
      (pcacdBaseReset s).ssr = 0 ∧ (pcacdBaseReset s).total = s.total) :=
  ⟨fun cfg s yp yt => ⟨eddmUpdate_total cfg s yp yt, eddmUpdate_ssr cfg s yp yt⟩,
   fun _ => ⟨rfl, rfl⟩,
   fun cfg E s obs => ⟨pcacdUpdate_fst_total cfg E s obs, pcacdUpdate_fst_ssr cfg E s obs⟩,
   fun _ _ => ⟨rfl, rfl⟩⟩

/-- C9: when the detector is not in the drift state and the classification
is correct, `EDDM.update` changes only the two sample counters; every
other attribute (drift state, error statistics, error indices, test
statistic, retraining recommendations) is untouched. -/
theorem eddm_correct_sample_frame (cfg : EddmConfig) (s : EddmState)
    (y_pred y_true : ℤ) (hd : s.drift_state ≠ some DriftState.drift)
    (hc : y_pred = y_true) :
    eddmUpdate cfg s y_pred y_true =
      { s with total := s.total + 1, ssr := s.ssr + 1 } := by
  unfold eddmUpdate
  rw [if_pos hc]
  unfold eddmPre
  rw [if_neg hd]
  rfl

/-- C9 witness: the frame property evaluated at the initial state and a
correct classification. -/
theorem eddm_correct_sample_frame_witness :
    eddmInit.drift_state ≠ some DriftState.drift ∧ (0 : ℤ) = 0 ∧
    eddmUpdate eddmCfgW eddmInit 0 0 =
      { eddmInit with total := eddmInit.total + 1, ssr := eddmInit.ssr + 1 } :=
  ⟨by decide, rfl, eddm_correct_sample_frame eddmCfgW eddmInit 0 0 (by decide) rfl⟩

/-- C1 (amended): for both detectors, an `update` call that arrives while
`drift_state` is `"drift"` transparently resets the detector (state back
to stable, accumulated statistics cleared, `total_samples` kept) before
anything else and never raises, so drift is a one-shot signal.  In EDDM
the new observation is then processed exactly as on a freshly reset
detector; in PCA-CD, however, the new observation is discarded — the call
only promotes the former test window to reference, clears the test window,
resets the monitors and increments the counters, and its result does not
depend on the observation at all. -/
theorem drift_one_shot_reset
    (cfgE : EddmConfig) (s : EddmState) (y_pred y_true : ℤ)
    (hd : s.drift_state = some DriftState.drift)
    (cfg : PcacdConfig) (E : Externals) (p : PcacdState E) (obs obs2 : List ℝ)
    (hpb : p.build = true) (hpd : p.drift_state = some DriftState.drift)
    (hw : 0 < cfg.window_size) :
    eddmUpdate cfgE s y_pred y_true = eddmUpdate cfgE (eddmReset s) y_pred y_true ∧
    (eddmReset s).drift_state = none ∧
    (eddmReset s).n_errors = 0 ∧
    (eddmReset s).total = s.total ∧
    pcacdUpdate cfg E p obs = (pcacdBaseUpdate (pcacdDriftRebuild cfg E p), none) ∧
    pcacdUpdate cfg E p obs = pcacdUpdate cfg E p obs2 ∧
    (pcacdUpdate cfg E p obs).1.drift_state = none ∧
    (pcacdUpdate cfg E p obs).1.test_window = [] ∧
    (pcacdUpdate cfg E p obs).1.ssr = 1 ∧
    (pcacdUpdate cfg E p obs).1.total = p.total + 1 := by
  have h1 : eddmPre s = eddmReset s := by
    unfold eddmPre; rw [if_pos hd]
  have h2 : eddmPre (eddmReset s) = eddmReset s := by
    unfold eddmPre; rw [if_neg (by simp [eddmReset])]
  have heddm : eddmUpdate cfgE s y_pred y_true =
      eddmUpdate cfgE (eddmReset s) y_pred y_true := by
    unfold eddmUpdate; rw [h1, h2]
  have hba : ∀ v : List ℝ, pcacdBuildAppend cfg E p v = pcacdDriftRebuild cfg E p := by
    intro v
    unfold pcacdBuildAppend
    rw [if_pos (by simp [hpd])]
  have htw : (pcacdDriftRebuild cfg E p).test_window = [] := rfl
  have hmain : ∀ v : List ℝ, pcacdUpdate cfg E p v =
      (pcacdBaseUpdate (pcacdDriftRebuild cfg E p), none) := by
    intro v
    simp only [pcacdUpdate]
    rw [if_pos hpb, hba v, htw]
    simp only [List.length_nil]
    rw [if_neg (by omega : ¬ (0 = cfg.window_size))]
  refine ⟨heddm, rfl, rfl, rfl, hmain obs, by rw [hmain obs, hmain obs2], ?_, ?_, ?_, ?_⟩
  · rw [hmain obs]; rfl
  · rw [hmain obs]; rfl
  · rw [hmain obs]; rfl
  · rw [hmain obs]; rfl

/-- C1 counterexample: the claim that the observation supplied to a
drift-state `update` call "is still processed after the reset" is false
for PCA-CD.  At a concrete drift state, the update result is identical for
two different observations, and neither window of the result contains the
supplied observation — it is dropped, only the counters advance. -/
theorem drift_obs_dropped_cex :
    cexDriftState.drift_state = some DriftState.drift ∧
    ([(5 : ℝ)] ≠ [(7 : ℝ)]) ∧
    pcacdUpdate cexConfig unitExternals cexDriftState [(5 : ℝ)] =
      pcacdUpdate cexConfig unitExternals cexDriftState [(7 : ℝ)] ∧
    (pcacdUpdate cexConfig unitExternals cexDriftState [(5 : ℝ)]).1.reference_window =
      [[1], [2]] ∧
    (pcacdUpdate cexConfig unitExternals cexDriftState [(5 : ℝ)]).1.test_window = [] := by
  refine ⟨rfl, ?_, rfl, rfl, rfl⟩
  intro h
  injection h with h1 h2
  norm_num at h1

/-- C1 witness: the amended one-shot property evaluated at concrete drift
states of both detectors. -/
theorem drift_one_shot_reset_witness :
    eddmDriftStateW.drift_state = some DriftState.drift ∧
    cexDriftState.build = true ∧
    cexDriftState.drift_state = some DriftState.drift ∧
    0 < cexConfig.window_size ∧
    (eddmUpdate eddmCfgW eddmDriftStateW 0 1 =
        eddmUpdate eddmCfgW (eddmReset eddmDriftStateW) 0 1 ∧
      (eddmReset eddmDriftStateW).drift_state = none ∧
      (eddmReset eddmDriftStateW).n_errors = 0 ∧
      (eddmReset eddmDriftStateW).total = eddmDriftStateW.total ∧
      pcacdUpdate cexConfig unitExternals cexDriftState [(5 : ℝ)] =
        (pcacdBaseUpdate (pcacdDriftRebuild cexConfig unitExternals cexDriftState), none) ∧
      pcacdUpdate cexConfig unitExternals cexDriftState [(5 : ℝ)] =
        pcacdUpdate cexConfig unitExternals cexDriftState [(7 : ℝ)] ∧
      (pcacdUpdate cexConfig unitExternals cexDriftState [(5 : ℝ)]).1.drift_state = none ∧
      (pcacdUpdate cexConfig unitExternals cexDriftState [(5 : ℝ)]).1.test_window = [] ∧
      (pcacdUpdate cexConfig unitExternals cexDriftState [(5 : ℝ)]).1.ssr = 1 ∧
      (pcacdUpdate cexConfig unitExternals cexDriftState [(5 : ℝ)]).1.total =
        cexDriftState.total + 1) :=
  ⟨rfl, rfl, rfl, by decide,
   drift_one_shot_reset eddmCfgW eddmDriftStateW 0 1 rfl cexConfig unitExternals
     cexDriftState [(5 : ℝ)] [(7 : ℝ)] rfl rfl (by decide)⟩

/-- C5: for a batch with at least two distinct values, `_build_kde_track`
returns densities aligned index-for-index with the input batch, where the
density at each observed point equals `(1/(n*h)) * sum_j K((x - x_j)/h)`
with the spec's Epanechnikov kernel and Silverman bandwidth. -/
theorem kde_track_matches_spec (values : List ℝ)
    (h : ∃ a ∈ values, ∃ b ∈ values, a ≠ b) :
    (buildKdeTrack values).point = values ∧
    (buildKdeTrack values).density.length = values.length ∧
    ∀ i, i < values.length →
      (buildKdeTrack values).density.getD i 0 =
        (1 / ((values.length : ℝ) * specSilvermanBandwidth values)) *
          ((values.map (fun xj =>
            specEpanechnikov ((values.getD i 0 - xj) /
              specSilvermanBandwidth values))).sum) := by
  have hker : specEpanechnikov = epanechnikovKernel := by
    funext u; unfold specEpanechnikov epanechnikovKernel; norm_num
  have hbw : specSilvermanBandwidth values = kdeBandwidth values := rfl
  refine ⟨rfl, by simp [buildKdeTrack], ?_⟩
  intro i hi
  have hvd : values.getD i 0 = values[i] := by
    rw [List.getD_eq_getElem?_getD, List.getElem?_eq_getElem hi]; rfl
  have hmd : ∀ f : ℝ → ℝ, (values.map f).getD i 0 = f values[i] := by
    intro f
    rw [List.getD_eq_getElem?_getD, List.getElem?_map, List.getElem?_eq_getElem hi]
    rfl
  rw [hker, hbw]
  simp only [buildKdeTrack]
  rw [hmd, hvd]

/-- C5 witness: the KDE refinement evaluated at the batch `[0, 1]`. -/
theorem kde_track_matches_spec_witness :
    (∃ a ∈ ([0, 1] : List ℝ), ∃ b ∈ ([0, 1] : List ℝ), a ≠ b) ∧
    ((buildKdeTrack [0, 1]).point = [0, 1] ∧
     (buildKdeTrack [0, 1]).density.length = ([0, 1] : List ℝ).length ∧
     ∀ i, i < ([0, 1] : List ℝ).length →
       (buildKdeTrack [0, 1]).density.getD i 0 =
         (1 / ((([0, 1] : List ℝ).length : ℝ) * specSilvermanBandwidth [0, 1])) *
           ((([0, 1] : List ℝ).map (fun xj =>
             specEpanechnikov ((([0, 1] : List ℝ).getD i 0 - xj) /
               specSilvermanBandwidth [0, 1]))).sum)) :=
  ⟨⟨0, by simp, 1, by simp, by norm_num⟩,
   kde_track_matches_spec [0, 1] ⟨0, by simp, 1, by simp, by norm_num⟩⟩

/-- C6: the intersection-area divergence is symmetric and equals half the
sum of the absolute pointwise density differences, and the symmetric KL
score used by the orchestrator is symmetric because it is the max of the
two directed divergences. -/
theorem divergence_symmetry (p q : List ℝ) (h : p.length = q.length) :
    intersectionArea p q = intersectionArea q p ∧
    intersectionArea p q =
      (1 / 2) * ∑ i ∈ Finset.range p.length, |p.getD i 0 - q.getD i 0| ∧
    klSymmetric p q = klSymmetric q p := by
  refine ⟨intersectionArea_comm p q, ?_, ?_⟩
  · unfold intersectionArea
    rw [zip_abs_sum_eq p q h]
  · unfold klSymmetric
    exact max_comm _ _

/-- C6 witness: the symmetry laws evaluated at two concrete equal-length
density vectors. -/
theorem divergence_symmetry_witness :
    ([1, 2] : List ℝ).length = ([3, 4] : List ℝ).length ∧
    (intersectionArea [1, 2] [3, 4] = intersectionArea [3, 4] [1, 2] ∧
     intersectionArea [1, 2] [3, 4] =
       (1 / 2) * ∑ i ∈ Finset.range ([1, 2] : List ℝ).length,
         |([1, 2] : List ℝ).getD i 0 - ([3, 4] : List ℝ).getD i 0| ∧
     klSymmetric [1, 2] [3, 4] = klSymmetric [3, 4] [1, 2]) :=
  ⟨rfl, divergence_symmetry [1, 2] [3, 4] rfl⟩

/-- C7: `_log_likelihood` factors exactly as the spec describes: one
kernel density is fitted from the first batch, it is evaluated at the
points of both batches, each batch's log-likelihood is normalized by that
batch's own length, and the result is the absolute difference of the two
normalized log-likelihoods. -/
theorem log_likelihood_matches_spec (values_p values_q : List ℝ)
    (hp : ∃ a ∈ values_p, ∃ b ∈ values_p, a ≠ b)
    (hq : ∃ a ∈ values_q, ∃ b ∈ values_q, a ≠ b) :
    logLikelihood values_p values_q =
      specLogLikelihoodDivergence (llhFittedDensity values_p values_q)
        values_p values_q := by
  unfold logLikelihood specLogLikelihoodDivergence specNormalizedLogLikelihood
    llhFittedDensity
  rfl

/-- C7 witness: the log-likelihood refinement evaluated at the batches
`[0, 1]` and `[0, 2]`. -/
theorem log_likelihood_matches_spec_witness :
    (∃ a ∈ ([0, 1] : List ℝ), ∃ b ∈ ([0, 1] : List ℝ), a ≠ b) ∧
    (∃ a ∈ ([0, 2] : List ℝ), ∃ b ∈ ([0, 2] : List ℝ), a ≠ b) ∧
    logLikelihood [0, 1] [0, 2] =
      specLogLikelihoodDivergence (llhFittedDensity [0, 1] [0, 2]) [0, 1] [0, 2] :=
  ⟨⟨0, by simp, 1, by simp, by norm_num⟩, ⟨0, by simp, 2, by simp, by norm_num⟩,
   log_likelihood_matches_spec [0, 1] [0, 2]
     ⟨0, by simp, 1, by simp, by norm_num⟩ ⟨0, by simp, 2, by simp, by norm_num⟩⟩

/-! ## EDDM invariant lemmas -/

theorem meanStep_nonneg (m d : ℝ) (k : ℕ) (hm : 0 ≤ m) (hd : 0 ≤ d) :
    0 ≤ m + (d - m) / ((k + 1 : ℕ) : ℝ) := by
  have hc : (0 : ℝ) < ((k + 1 : ℕ) : ℝ) := by positivity
  have hc1 : (1 : ℝ) ≤ ((k + 1 : ℕ) : ℝ) := by exact_mod_cast Nat.succ_le_succ (Nat.zero_le k)
  have key : m + (d - m) / ((k + 1 : ℕ) : ℝ) =
      ((((k + 1 : ℕ) : ℝ) - 1) * m + d) / ((k + 1 : ℕ) : ℝ) := by
    field_simp
    ring
  rw [key]
  apply div_nonneg _ (le_of_lt hc)
  have := mul_nonneg (by linarith : (0 : ℝ) ≤ ((k + 1 : ℕ) : ℝ) - 1) hm
  linarith

theorem meanStep_pos (m d : ℝ) (k : ℕ) (hm : 0 ≤ m) (hd : 1 ≤ d) :
    0 < m + (d - m) / ((k + 1 : ℕ) : ℝ) := by
  have hc : (0 : ℝ) < ((k + 1 : ℕ) : ℝ) := by positivity
  have hc1 : (1 : ℝ) ≤ ((k + 1 : ℕ) : ℝ) := by exact_mod_cast Nat.succ_le_succ (Nat.zero_le k)
  have key : m + (d - m) / ((k + 1 : ℕ) : ℝ) =
      ((((k + 1 : ℕ) : ℝ) - 1) * m + d) / ((k + 1 : ℕ) : ℝ) := by
    field_simp
    ring
  rw [key]
  apply div_pos _ hc
  have := mul_nonneg (by linarith : (0 : ℝ) ≤ ((k + 1 : ℕ) : ℝ) - 1) hm
  linarith

theorem eddmInv_init (cfg : EddmConfig) : EddmInv cfg eddmInit := by
  constructor <;> simp [eddmInit]

theorem eddmInv_reset (cfg : EddmConfig) (s : EddmState) :
    EddmInv cfg (eddmReset s) := by
  constructor <;> simp [eddmReset]

theorem eddmInv_countStep (cfg : EddmConfig) (s : EddmState)
    (h : EddmInv cfg s) : EddmInv cfg (eddmCountStep s) := by
  refine ⟨h.mean_nonneg, h.std_nonneg, h.max_nonneg, h.curr_nonneg,
    h.curr_zero, ?_, h.mean_pos, h.alarm_le⟩
  intro hn
  have hc := h.curr_le hn
  simp only [eddmCountStep]
  push_cast
  push_cast at hc
  omega

theorem eddmInv_pre (cfg : EddmConfig) (s : EddmState) (h : EddmInv cfg s) :
    EddmInv cfg (eddmPre s) := by
  unfold eddmPre
  split
  · exact eddmInv_reset cfg s
  · exact h

theorem eddmInv_error (cfg : EddmConfig) (p : EddmState) (h : EddmInv cfg p) :
    EddmInv cfg (eddmErrorStep cfg (eddmCountStep p)) := by
  have hcurrle : p.index_error_curr ≤ (p.ssr : ℤ) := by
    rcases Nat.eq_zero_or_pos p.n_errors with h0 | h1
    · rw [h.curr_zero h0]
      exact Int.ofNat_nonneg p.ssr
    · have := h.curr_le h1
      omega
  have hdist0 : (0 : ℝ) ≤
      ((((p.ssr + 1 : ℕ) : ℤ) - 1 - p.index_error_curr : ℤ) : ℝ) := by
    have hz : (0 : ℤ) ≤ ((p.ssr + 1 : ℕ) : ℤ) - 1 - p.index_error_curr := by
      push_cast
      omega
    exact_mod_cast hz
  have hdist1 : 1 ≤ p.n_errors → (1 : ℝ) ≤
      ((((p.ssr + 1 : ℕ) : ℤ) - 1 - p.index_error_curr : ℤ) : ℝ) := by
    intro h1
    have hc := h.curr_le h1
    have hz : (1 : ℤ) ≤ ((p.ssr + 1 : ℕ) : ℤ) - 1 - p.index_error_curr := by
      push_cast
      push_cast at hc
      omega
    exact_mod_cast hz
  simp only [eddmErrorStep, eddmCountStep]
  split
  · rename_i hlt
    refine ⟨?_, ?_, ?_, ?_, ?_, ?_, ?_, ?_⟩
    · exact meanStep_nonneg _ _ _ h.mean_nonneg hdist0
    · exact Real.sqrt_nonneg _
    · exact h.max_nonneg
    · simp only []
      push_cast
      omega
    · intro h0
      exact absurd h0 (Nat.succ_ne_zero _)
    · intro _
      simp only []
      push_cast
      omega
    · intro h2
      have h2b : 2 ≤ p.n_errors + 1 := h2
      have h1 : 1 ≤ p.n_errors := by omega
      exact meanStep_pos _ _ _ h.mean_nonneg (hdist1 h1)
    · intro halarm
      have hth := h.alarm_le halarm
      show cfg.n_threshold ≤ p.n_errors + 1
      omega
  · rename_i hge
    refine ⟨?_, ?_, ?_, ?_, ?_, ?_, ?_, ?_⟩
    · exact meanStep_nonneg _ _ _ h.mean_nonneg hdist0
    · exact Real.sqrt_nonneg _
    · have hmean := meanStep_nonneg _ _ p.n_errors h.mean_nonneg hdist0
      have hstd := Real.sqrt_nonneg
        ((p.dist_std + ((((p.ssr + 1 : ℕ) : ℤ) - 1 - p.index_error_curr : ℤ) : ℝ) -
          (p.dist_mean + (((((p.ssr + 1 : ℕ) : ℤ) - 1 - p.index_error_curr : ℤ) : ℝ) -
            p.dist_mean) / ((p.n_errors + 1 : ℕ) : ℝ))) / ((p.n_errors + 1 : ℕ) : ℝ))
      split
      · positivity
      · exact h.max_nonneg
    · simp only []
      push_cast
      omega
    · intro h0
      exact absurd h0 (Nat.succ_ne_zero _)
    · intro _
      simp only []
      push_cast
      omega
    · intro h2
      have h2b : 2 ≤ p.n_errors + 1 := h2
      have h1 : 1 ≤ p.n_errors := by omega
      exact meanStep_pos _ _ _ h.mean_nonneg (hdist1 h1)
    · intro _
      have hge2 : ¬ (p.n_errors + 1 < cfg.n_threshold) := hge
      show cfg.n_threshold ≤ p.n_errors + 1
      omega

theorem eddmErrorStep_mean (cfg : EddmConfig) (s : EddmState) :
    (eddmErrorStep cfg s).dist_mean = eddmNewMean s := by
  simp only [eddmErrorStep]; split <;> rfl

theorem eddmErrorStep_std (cfg : EddmConfig) (s : EddmState) :
    (eddmErrorStep cfg s).dist_std = eddmNewStd s := by
  simp only [eddmErrorStep]; split <;> rfl

theorem eddmErrorStep_max (cfg : EddmConfig) (s : EddmState)
    (hge : ¬ (s.n_errors + 1 < cfg.n_threshold)) :
    (eddmErrorStep cfg s).max_numerator =
      if s.max_numerator < eddmNewMean s + 2 * eddmNewStd s
      then eddmNewMean s + 2 * eddmNewStd s else s.max_numerator := by
  simp only [eddmErrorStep]
  split
  · rename_i hlt; exact absurd hlt hge
  · rfl

theorem eddmErrorStep_stat (cfg : EddmConfig) (s : EddmState)
    (hge : ¬ (s.n_errors + 1 < cfg.n_threshold)) :
    (eddmErrorStep cfg s).test_statistic =
      some ((eddmNewMean s + 2 * eddmNewStd s) /
        (if s.max_numerator < eddmNewMean s + 2 * eddmNewStd s
         then eddmNewMean s + 2 * eddmNewStd s else s.max_numerator)) := by
  simp only [eddmErrorStep]
  split
  · rename_i hlt; exact absurd hlt hge
  · rfl

theorem statistic_bounds (cn mx : ℝ) (hcn : 0 < cn) (hmx : cn ≤ mx) :
    0 < cn / mx ∧ cn / mx ≤ 1 := by
  have hm : 0 < mx := lt_of_lt_of_le hcn hmx
  exact ⟨div_pos hcn hm, (div_le_one hm).mpr hmx⟩

theorem eddm_error_statistic (cfg : EddmConfig) (p : EddmState)
    (h : EddmInv cfg p) (h2 : 2 ≤ cfg.n_threshold)
    (hth : cfg.n_threshold ≤ p.n_errors + 1) :
    0 < (eddmErrorStep cfg (eddmCountStep p)).dist_mean +
        2 * (eddmErrorStep cfg (eddmCountStep p)).dist_std ∧
    (eddmErrorStep cfg (eddmCountStep p)).dist_mean +
        2 * (eddmErrorStep cfg (eddmCountStep p)).dist_std ≤
      (eddmErrorStep cfg (eddmCountStep p)).max_numerator ∧
    0 < (eddmErrorStep cfg (eddmCountStep p)).max_numerator ∧
    (eddmErrorStep cfg (eddmCountStep p)).test_statistic =
      some (((eddmErrorStep cfg (eddmCountStep p)).dist_mean +
        2 * (eddmErrorStep cfg (eddmCountStep p)).dist_std) /
          (eddmErrorStep cfg (eddmCountStep p)).max_numerator) ∧
    (∀ t : ℝ, (eddmErrorStep cfg (eddmCountStep p)).test_statistic = some t →
      0 < t ∧ t ≤ 1) := by
  have hge : ¬ ((eddmCountStep p).n_errors + 1 < cfg.n_threshold) := by
    have hqn : (eddmCountStep p).n_errors = p.n_errors := rfl
    rw [hqn]
    omega
  have hmean := eddmErrorStep_mean cfg (eddmCountStep p)
  have hstd := eddmErrorStep_std cfg (eddmCountStep p)
  have hmax := eddmErrorStep_max cfg (eddmCountStep p) hge
  have hstat := eddmErrorStep_stat cfg (eddmCountStep p) hge
  have h1 : 1 ≤ p.n_errors := by omega
  have hd1 : (1 : ℝ) ≤ eddmDist (eddmCountStep p) := by
    have hc := h.curr_le h1
    have hz : (1 : ℤ) ≤ ((eddmCountStep p).ssr : ℤ) - 1 -
        (eddmCountStep p).index_error_curr := by
      show (1 : ℤ) ≤ ((p.ssr + 1 : ℕ) : ℤ) - 1 - p.index_error_curr
      push_cast
      push_cast at hc
      omega
    unfold eddmDist
    exact_mod_cast hz
  have hmpos : 0 < eddmNewMean (eddmCountStep p) := by
    unfold eddmNewMean
    exact meanStep_pos p.dist_mean (eddmDist (eddmCountStep p)) p.n_errors
      h.mean_nonneg hd1
  have hs0 : 0 ≤ eddmNewStd (eddmCountStep p) := by
    unfold eddmNewStd
    exact Real.sqrt_nonneg _
  have hcn : 0 < eddmNewMean (eddmCountStep p) + 2 * eddmNewStd (eddmCountStep p) := by
    linarith
  have hbound : eddmNewMean (eddmCountStep p) + 2 * eddmNewStd (eddmCountStep p) ≤
      (eddmErrorStep cfg (eddmCountStep p)).max_numerator := by
    rw [hmax]
    split
    · exact le_refl _
    · rename_i hnot
      exact le_of_not_lt hnot
  have hmaxpos : 0 < (eddmErrorStep cfg (eddmCountStep p)).max_numerator :=
    lt_of_lt_of_le hcn hbound
  refine ⟨?_, ?_, hmaxpos, ?_, ?_⟩
  · rw [hmean, hstd]; exact hcn
  · rw [hmean, hstd]; exact hbound
  · rw [hmean, hstd, hstat, hmax]
  · intro t ht
    rw [hstat] at ht
    have hteq := Option.some.inj ht
    rw [← hmax] at hteq
    rw [← hteq]
    exact statistic_bounds _ _ hcn hbound

theorem eddmInv_update (cfg : EddmConfig) (s : EddmState) (y_pred y_true : ℤ)
    (h : EddmInv cfg s) : EddmInv cfg (eddmUpdate cfg s y_pred y_true) := by
  unfold eddmUpdate
  split
  · exact eddmInv_countStep cfg _ (eddmInv_pre cfg s h)
  · exact eddmInv_error cfg _ (eddmInv_pre cfg s h)

theorem eddm_reachable_inv (cfg : EddmConfig) (s : EddmState)
    (h : EddmReachable cfg s) : EddmInv cfg s := by
  induction h with
  | init => exact eddmInv_init cfg
  | step s y_pred y_true _ ih => exact eddmInv_update cfg s y_pred y_true ih
  | reset s _ _ => exact eddmInv_reset cfg s

/-- C8: while the number of classification errors since the last reset is
below `n_threshold`, a reachable EDDM detector is never in the warning or
drift state — the burn-in period cannot raise an alarm. -/
theorem eddm_burn_in_no_alarm (cfg : EddmConfig) (s : EddmState)
    (hreach : EddmReachable cfg s) (hlow : s.n_errors < cfg.n_threshold) :
    s.drift_state ≠ some DriftState.warning ∧
    s.drift_state ≠ some DriftState.drift := by
  have hinv := eddm_reachable_inv cfg s hreach
  constructor
  · intro hw
    have := hinv.alarm_le (Or.inl hw)
    omega
  · intro hd
    have := hinv.alarm_le (Or.inr hd)
    omega

/-- C8 witness: the burn-in suppression evaluated at the initial state. -/
theorem eddm_burn_in_no_alarm_witness :
    EddmReachable eddmCfgW eddmInit ∧
    eddmInit.n_errors < eddmCfgW.n_threshold ∧
    (eddmInit.drift_state ≠ some DriftState.warning ∧
     eddmInit.drift_state ≠ some DriftState.drift) :=
  ⟨EddmReachable.init, by decide,
   eddm_burn_in_no_alarm eddmCfgW eddmInit EddmReachable.init (by decide)⟩

/-- C10: with `n_threshold >= 2`, whenever EDDM computes the test
statistic (an error arrives and the error count reaches `n_threshold`),
the numerator `dist_mean + 2*dist_std` is strictly positive,
`_max_numerator` has been raised to at least that numerator (so the
division never divides by zero), and the resulting test statistic lies in
the interval `(0, 1]`. -/
theorem eddm_test_statistic_safe (cfg : EddmConfig) (s : EddmState)
    (y_pred y_true : ℤ) (hreach : EddmReachable cfg s)
    (h2 : 2 ≤ cfg.n_threshold) (herr : ¬ y_pred = y_true)
    (hn : cfg.n_threshold ≤ (eddmUpdate cfg s y_pred y_true).n_errors) :
    0 < (eddmUpdate cfg s y_pred y_true).dist_mean +
        2 * (eddmUpdate cfg s y_pred y_true).dist_std ∧
    (eddmUpdate cfg s y_pred y_true).dist_mean +
        2 * (eddmUpdate cfg s y_pred y_true).dist_std ≤
      (eddmUpdate cfg s y_pred y_true).max_numerator ∧
    0 < (eddmUpdate cfg s y_pred y_true).max_numerator ∧
    (eddmUpdate cfg s y_pred y_true).test_statistic =
      some (((eddmUpdate cfg s y_pred y_true).dist_mean +
        2 * (eddmUpdate cfg s y_pred y_true).dist_std) /
          (eddmUpdate cfg s y_pred y_true).max_numerator) ∧
    (∀ t : ℝ, (eddmUpdate cfg s y_pred y_true).test_statistic = some t →
      0 < t ∧ t ≤ 1) := by
  have hB : eddmUpdate cfg s y_pred y_true =
      eddmErrorStep cfg (eddmCountStep (eddmPre s)) := by
    unfold eddmUpdate
    rw [if_neg herr]
  rw [hB] at hn ⊢
  have he : (eddmErrorStep cfg (eddmCountStep (eddmPre s))).n_errors =
      (eddmPre s).n_errors + 1 := by
    rw [eddmErrorStep_n_errors]
    rfl
  rw [he] at hn
  exact eddm_error_statistic cfg (eddmPre s)
    (eddmInv_pre cfg s (eddm_reachable_inv cfg s hreach)) h2 hn

/-- C10 witness: the statistic-safety property evaluated on a concrete run
with `n_threshold = 2` and errors at the first two samples. -/
theorem eddm_test_statistic_safe_witness :
    EddmReachable eddmCfgW (eddmUpdate eddmCfgW eddmInit 0 1) ∧
    2 ≤ eddmCfgW.n_threshold ∧
    ¬ (0 : ℤ) = 1 ∧
    eddmCfgW.n_threshold ≤
      (eddmUpdate eddmCfgW (eddmUpdate eddmCfgW eddmInit 0 1) 0 1).n_errors ∧
    (0 < (eddmUpdate eddmCfgW (eddmUpdate eddmCfgW eddmInit 0 1) 0 1).dist_mean +
        2 * (eddmUpdate eddmCfgW (eddmUpdate eddmCfgW eddmInit 0 1) 0 1).dist_std ∧
      (eddmUpdate eddmCfgW (eddmUpdate eddmCfgW eddmInit 0 1) 0 1).dist_mean +
          2 * (eddmUpdate eddmCfgW (eddmUpdate eddmCfgW eddmInit 0 1) 0 1).dist_std ≤
        (eddmUpdate eddmCfgW (eddmUpdate eddmCfgW eddmInit 0 1) 0 1).max_numerator ∧
      0 < (eddmUpdate eddmCfgW (eddmUpdate eddmCfgW eddmInit 0 1) 0 1).max_numerator ∧
      (eddmUpdate eddmCfgW (eddmUpdate eddmCfgW eddmInit 0 1) 0 1).test_statistic =
        some (((eddmUpdate eddmCfgW (eddmUpdate eddmCfgW eddmInit 0 1) 0 1).dist_mean +
          2 * (eddmUpdate eddmCfgW (eddmUpdate eddmCfgW eddmInit 0 1) 0 1).dist_std) /
            (eddmUpdate eddmCfgW (eddmUpdate eddmCfgW eddmInit 0 1) 0 1).max_numerator) ∧
      (∀ t : ℝ,
        (eddmUpdate eddmCfgW (eddmUpdate eddmCfgW eddmInit 0 1) 0 1).test_statistic =
          some t → 0 < t ∧ t ≤ 1)) :=
  ⟨EddmReachable.step eddmInit 0 1 EddmReachable.init, by decide, by decide, by decide,
   eddm_test_statistic_safe eddmCfgW (eddmUpdate eddmCfgW eddmInit 0 1) 0 1
     (EddmReachable.step eddmInit 0 1 EddmReachable.init) (by decide) (by decide)
     (by decide)⟩

theorem pcacdMonitorStep_snd (cfg : PcacdConfig) (E : Externals)
    (s : PcacdState E) (obs : List ℝ) :
    (pcacdMonitorStep cfg E s obs).2 =
      if (s.total : ℤ) % pcacdStep cfg = 0 ∧ s.total ≠ 0 then
        some (pythonMax (pcacdChangeScores cfg E s obs)) else none := by
  simp only [pcacdMonitorStep]
  split
  · split <;> rfl
  · rfl

theorem pcacdUpdate_snd_build (cfg : PcacdConfig) (E : Externals)
    (s : PcacdState E) (obs : List ℝ) (hb : s.build = true) :
    (pcacdUpdate cfg E s obs).2 = none := by
  simp only [pcacdUpdate]
  rw [if_pos hb]

theorem pcacdUpdate_snd_monitor (cfg : PcacdConfig) (E : Externals)
    (s : PcacdState E) (obs : List ℝ) (hb : s.build = false) :
    (pcacdUpdate cfg E s obs).2 = (pcacdMonitorStep cfg E s obs).2 := by
  simp only [pcacdUpdate]
  rw [if_neg (by simp [hb])]

theorem emod_pos_mul_iff (t : ℕ) (d : ℤ) (hd : 0 < d) :
    ((t : ℤ) % d = 0 ∧ t ≠ 0) ↔ ∃ k : ℤ, 0 < k ∧ (t : ℤ) = k * d := by
  constructor
  · rintro ⟨h1, h2⟩
    obtain ⟨k, hk⟩ := Int.dvd_of_emod_eq_zero h1
    refine ⟨k, ?_, by rw [hk]; ring⟩
    by_contra hknp
    push_neg at hknp
    have hle : (t : ℤ) ≤ 0 := by
      rw [hk]
      exact mul_nonpos_of_nonneg_of_nonpos (le_of_lt hd) hknp
    have ht0 : (t : ℤ) = 0 := le_antisymm hle (by positivity)
    exact h2 (by exact_mod_cast ht0)
  · rintro ⟨k, hk, hkeq⟩
    constructor
    · rw [hkeq]
      exact Int.mul_emod_left k d
    · intro ht
      rw [ht] at hkeq
      have hpos : (0 : ℤ) < k * d := mul_pos hk hd
      simp only [Nat.cast_zero] at hkeq
      exact absurd hkeq.symm (ne_of_gt hpos)

/-- C3: the detection cadence of PCA-CD.  `step` and the Page-Hinkley
threshold are exactly the spec's formulas (`min(100, round(sample_period *
window_size))` and `round(0.01 * window_size)`, the latter passed to the
monitor's constructor), and in the monitoring phase a divergence
evaluation happens on an update call exactly when the detector's
`total_samples` is a nonzero multiple of `step`; during the building phase
and on the very first observation no evaluation ever happens. -/
theorem pcacd_step_cadence (cfg : PcacdConfig) (E : Externals)
    (hstep : 0 < pcacdStep cfg) :
    pcacdStep cfg = min 100 (pythonRound (cfg.sample_period * (cfg.window_size : ℚ))) ∧
    pcacdPhThreshold cfg = pythonRound ((1 / 100 : ℚ) * (cfg.window_size : ℚ)) ∧
    (pcacdInit cfg E).monitor = E.monitorInit cfg.delta (pcacdPhThreshold cfg) 0 ∧
    (∀ (s : PcacdState E) (obs : List ℝ), s.build = false →
      ((pcacdUpdate cfg E s obs).2.isSome ↔
        ∃ k : ℤ, 0 < k ∧ (s.total : ℤ) = k * pcacdStep cfg)) ∧
    (∀ (s : PcacdState E) (obs : List ℝ), s.build = true →
      (pcacdUpdate cfg E s obs).2 = none) ∧
    (∀ (s : PcacdState E) (obs : List ℝ), s.total = 0 →
      (pcacdUpdate cfg E s obs).2 = none) := by
  refine ⟨rfl, ?_, rfl, ?_, ?_, ?_⟩
  · unfold pcacdPhThreshold
    norm_num
  · intro s obs hb
    have hiff : (pcacdUpdate cfg E s obs).2.isSome ↔
        ((s.total : ℤ) % pcacdStep cfg = 0 ∧ s.total ≠ 0) := by
      rw [pcacdUpdate_snd_monitor cfg E s obs hb, pcacdMonitorStep_snd]
      by_cases hc : ((s.total : ℤ) % pcacdStep cfg = 0 ∧ s.total ≠ 0)
      · rw [if_pos hc]
        simp only [Option.isSome_some, true_iff]
        exact hc
      · rw [if_neg hc]
        simp only [Option.isSome_none, Bool.false_eq_true, false_iff]
        exact hc
    rw [hiff, emod_pos_mul_iff s.total (pcacdStep cfg) hstep]
  · intro s obs hb
    exact pcacdUpdate_snd_build cfg E s obs hb
  · intro s obs ht
    cases hbv : s.build
    · rw [pcacdUpdate_snd_monitor cfg E s obs hbv, pcacdMonitorStep_snd]
      rw [if_neg (by simp [ht])]
    · exact pcacdUpdate_snd_build cfg E s obs hbv

theorem pcacdStep_witConfig : pcacdStep witConfig = 5 := by
  unfold pcacdStep pythonRound witConfig
  norm_num

/-- C3 witness: the cadence theorem evaluated at a configuration with
`window_size = 100`, `sample_period = 1/20` (so `step = 5 > 0`). -/
theorem pcacd_step_cadence_witness :
    0 < pcacdStep witConfig ∧
    (pcacdStep witConfig =
        min 100 (pythonRound (witConfig.sample_period * (witConfig.window_size : ℚ))) ∧
      pcacdPhThreshold witConfig =
        pythonRound ((1 / 100 : ℚ) * (witConfig.window_size : ℚ)) ∧
      (pcacdInit witConfig unitExternals).monitor =
        unitExternals.monitorInit witConfig.delta (pcacdPhThreshold witConfig) 0 ∧
      (∀ (s : PcacdState unitExternals) (obs : List ℝ), s.build = false →
        ((pcacdUpdate witConfig unitExternals s obs).2.isSome ↔
          ∃ k : ℤ, 0 < k ∧ (s.total : ℤ) = k * pcacdStep witConfig)) ∧
      (∀ (s : PcacdState unitExternals) (obs : List ℝ), s.build = true →
        (pcacdUpdate witConfig unitExternals s obs).2 = none) ∧
      (∀ (s : PcacdState unitExternals) (obs : List ℝ), s.total = 0 →
        (pcacdUpdate witConfig unitExternals s obs).2 = none)) :=
  ⟨by rw [pcacdStep_witConfig]; norm_num,
   pcacd_step_cadence witConfig unitExternals (by rw [pcacdStep_witConfig]; norm_num)⟩

/-- C4: whenever a monitoring-phase update feeds a change score to the
internal monitor, that score is the maximum of the per-dimension
divergences between the reference and test density estimates over all
retained principal components — it is a member of the score list and an
upper bound of it, not the mean or any other reduction. -/
theorem pcacd_score_is_max (cfg : PcacdConfig) (E : Externals)
    (s : PcacdState E) (obs : List ℝ) (score : ℝ)
    (hb : s.build = false) (hn : 1 ≤ s.num_pcs)
    (hs : (pcacdUpdate cfg E s obs).2 = some score) :
    score ∈ pcacdChangeScores cfg E s obs ∧
    ∀ x ∈ pcacdChangeScores cfg E s obs, x ≤ score := by
  rw [pcacdUpdate_snd_monitor cfg E s obs hb, pcacdMonitorStep_snd] at hs
  by_cases hc : ((s.total : ℤ) % pcacdStep cfg = 0 ∧ s.total ≠ 0)
  · rw [if_pos hc] at hs
    have hsc := Option.some.inj hs
    have hlen : (pcacdChangeScores cfg E s obs).length = s.num_pcs := by
      simp [pcacdChangeScores]
    have hne : pcacdChangeScores cfg E s obs ≠ [] := by
      intro h0
      rw [h0] at hlen
      simp at hlen
      omega
    rw [← hsc]
    exact ⟨pythonMax_mem _ hne, fun x hx => pythonMax_le _ x hx⟩
  · rw [if_neg hc] at hs
    exact absurd hs (by simp)

/-- C4 witness: the max-reduction property evaluated at a concrete
monitoring-phase state whose `total_samples = 10` is a nonzero multiple of
`step = 5`. -/
theorem pcacd_score_is_max_witness :
    witMonitorState.build = false ∧
    1 ≤ witMonitorState.num_pcs ∧
    (pcacdUpdate witConfig unitExternals witMonitorState [(3 : ℝ)]).2 =
      some (pythonMax (pcacdChangeScores witConfig unitExternals witMonitorState
        [(3 : ℝ)])) ∧
    (pythonMax (pcacdChangeScores witConfig unitExternals witMonitorState [(3 : ℝ)]) ∈
        pcacdChangeScores witConfig unitExternals witMonitorState [(3 : ℝ)] ∧
      ∀ x ∈ pcacdChangeScores witConfig unitExternals witMonitorState [(3 : ℝ)],
        x ≤ pythonMax (pcacdChangeScores witConfig unitExternals witMonitorState
          [(3 : ℝ)])) :=
  by
  have hcond : ((witMonitorState.total : ℤ) % pcacdStep witConfig = 0 ∧
      witMonitorState.total ≠ 0) := by
    rw [pcacdStep_witConfig]
    exact ⟨by decide, by decide⟩
  have hs : (pcacdUpdate witConfig unitExternals witMonitorState [(3 : ℝ)]).2 =
      some (pythonMax (pcacdChangeScores witConfig unitExternals witMonitorState
        [(3 : ℝ)])) := by
    rw [pcacdUpdate_snd_monitor witConfig unitExternals witMonitorState [(3 : ℝ)] rfl,
      pcacdMonitorStep_snd, if_pos hcond]
  exact ⟨rfl, by decide, hs,
    pcacd_score_is_max witConfig unitExternals witMonitorState [(3 : ℝ)] _ rfl
      (by decide) hs⟩
